import Mathlib

/-!
Verification development for the pattern-inference engine of
`app/services/pattern_detector.py` (class `PatternDetector`).

Modelling conventions (shallow embedding):

* An instant (`datetime`) is an `Int`: milliseconds since an arbitrary
  midnight epoch, timezone-naive.  `dt.hour`, `dt.minute`, `timedelta`
  arithmetic, `dt.replace(year/month/day := now's)` and `max` on datetimes
  all translate to integer arithmetic on this representation.
* Python float arithmetic on these quantities (`total_seconds()/3600`,
  thresholds `0.1`/`0.2`, `statistics.mean`, `statistics.stdev`) is modelled
  with ideal exact arithmetic: rationals for means and variances, and the
  real square root for `stdev`.  `int(x)` is truncation toward zero.
* `statistics.stdev` returns the square root of the (rational) sample
  variance.  The result field `stddev_duration_ms` is stored as that sample
  variance (field `stddev_sq_duration_ms`): the square root is a bijection on
  nonnegatives, and only the field's presence and threshold comparisons are
  observable.  Threshold comparisons on `stdev/mean` appear inside `Prop`s
  via `Real.sqrt` so that everything else stays computable.
* The ISO-8601 strings returned for `next_green_start` / `next_green_end`
  are stored as the underlying instants (`isoformat` is injective on naive
  datetimes).
* A raised Python exception (`StatisticsError` from `mean`/`stdev` on
  too-short input, `ZeroDivisionError` from `stdev/mean` with a zero mean)
  is modelled as the absence of a result: the analysis function returns
  `none`, and the regularity relation is unsatisfiable, in exactly the
  inputs that raise.
* `datetime.now(...)`, read inside `_predict_next_green_phase`, is modelled
  as an explicit parameter `now` threaded into the embedding: the value the
  ambient clock returned at that call.
-/

set_option maxRecDepth 8192

/-- Python `int(q)` on a real/rational quantity: truncation toward zero. -/
def pyInt (q : ℚ) : Int := if q < 0 then ⌈q⌉ else ⌊q⌋

/-- `statistics.mean` over a list of integers, as an exact rational. -/
def qmean (l : List Int) : ℚ := (l.sum : ℚ) / (l.length : ℚ)

/-- The exact sample variance `Σ (x - mean)² / (n - 1)`;
`statistics.stdev l` is its square root. -/
def sampleVar (l : List Int) : ℚ :=
  (l.map (fun x => ((x : ℚ) - qmean l) ^ 2)).sum / ((l.length : ℚ) - 1)

/-- Python `min` over a non-empty list (`0` junk on `[]`, never used there). -/
def minD : List Int → Int
  | [] => 0
  | [x] => x
  | x :: y :: ys => min x (minD (y :: ys))

/-- Python `max` over a non-empty list (`0` junk on `[]`, never used there). -/
def maxD : List Int → Int
  | [] => 0
  | [x] => x
  | x :: y :: ys => max x (maxD (y :: ys))

/-- `l[-1]` of a non-empty list (`0` junk on `[]`, never used there). -/
def lastD : List Int → Int
  | [] => 0
  | [x] => x
  | _ :: x :: xs => lastD (x :: xs)

/-- `dt.hour` of an instant in ms. -/
def hourOf (t : Int) : Int := (t / 3600000) % 24

/-- `dt.minute` of an instant in ms. -/
def minuteOf (t : Int) : Int := (t / 60000) % 60

/-- Midnight of the instant's calendar day (`dt.replace(hour=0, minute=0, ...)`). -/
def dayStart (t : Int) : Int := t - t % 86400000

/-- Milliseconds since midnight of the instant's day. -/
def timeOfDay (t : Int) : Int := t % 86400000

/-- `_get_time_bucket(dt, bucket_minutes=30)`: the source formats the pair as
the string `f"{hour:02d}:{minute:02d}"`; the formatting is injective, so the
bucket is kept as the `(hour, rounded-down minute)` pair. -/
def timeBucket (t : Int) : Int × Int :=
  (hourOf t, minuteOf t / 30 * 30)

/-- `_get_time_of_day_period(dt)`. -/
def timeOfDayPeriod (t : Int) : String :=
  let hour := hourOf t
  if 6 ≤ hour ∧ hour < 9 then ("morning_rush")
  else if 9 ≤ hour ∧ hour < 12 then ("late_morning")
  else if 12 ≤ hour ∧ hour < 14 then ("lunch")
  else if 14 ≤ hour ∧ hour < 17 then ("afternoon")
  else if 17 ≤ hour ∧ hour < 20 then ("evening_rush")
  else if 20 ≤ hour ∧ hour < 23 then ("evening")
  else ("night")

/-- The `(timestamp, duration)` stream `zip(self.timestamps, self.durations)`
(Python `zip` silently truncates to the shorter sequence). -/
def zipped (ts ds : List Int) : List (Int × Int) := ts.zip ds

/-- `_group_by_time_periods()`: period tag of each measurement (the dict
groups durations under these tags; the result is passed to
`_determine_regularity` which never reads it, so only the tags are kept). -/
def groupByTimePeriods (ts ds : List Int) : List (String × Int) :=
  (zipped ts ds).map (fun p => (timeOfDayPeriod p.1, p.2))

/-- Keep the first occurrence of every element, in order: the iteration
order of the keys of a Python dict built by insertion. -/
def dedupFirst : List (Int × Int) → List (Int × Int)
  | [] => []
  | x :: xs => x :: (dedupFirst xs).filter (fun y => y != x)

/-- The distinct 30-minute buckets of the zipped measurements, in first-use
order (the key order of the `defaultdict` in `_detect_daily_patterns`). -/
def bucketKeys (ts ds : List Int) : List (Int × Int) :=
  dedupFirst ((zipped ts ds).map (fun p => timeBucket p.1))

/-- The zipped measurements landing in bucket `k`, in stream order. -/
def bucketEntries (ts ds : List Int) (k : Int × Int) : List (Int × Int) :=
  (zipped ts ds).filter (fun p => timeBucket p.1 == k)

/-- Stable ascending insertion into a sorted list of instants. -/
def sortedInsert (x : Int) : List Int → List Int
  | [] => [x]
  | y :: ys => if y ≤ x then y :: sortedInsert x ys else x :: y :: ys

/-- Python `sorted` on a list of instants. -/
def sortInt : List Int → List Int
  | [] => []
  | x :: xs => sortedInsert x (sortInt xs)

/-- One value of the `daily_patterns` dict built by `_detect_daily_patterns`. -/
structure BucketPat where
  avgDuration : Option Int
  avgCycle : Option Int
  sampleCount : Nat
  lastOccurrence : Int
  durations : List Int
  cycleTimes : List Int
  deriving Repr, DecidableEq

/-- The per-bucket record of `_detect_daily_patterns` for one bucket's
entries: sort the timestamps, keep consecutive differences that are roughly
one day (`20 <= diff_hours <= 28`, i.e. `72e6 ≤ diff_ms ≤ 100.8e6`), and
average durations and those cycle times (`int(mean(...))`). -/
def mkBucketPat (ents : List (Int × Int)) : BucketPat :=
  let tsb := ents.map Prod.fst
  let dsb := ents.map Prod.snd
  let sorted := sortInt tsb
  let cys := (sorted.zip sorted.tail).filterMap (fun ab =>
    let d := ab.2 - ab.1
    if 72000000 ≤ d ∧ d ≤ 100800000 then some d else none)
  { avgDuration := if dsb = [] then none else some (pyInt (qmean dsb)),
    avgCycle := if cys = [] then none else some (pyInt (qmean cys)),
    sampleCount := tsb.length,
    lastOccurrence := maxD tsb,
    durations := dsb,
    cycleTimes := cys }

/-- `_detect_daily_patterns()`: buckets holding at least two measurements,
with their pattern records, in bucket first-use order. -/
def detectDailyPatterns (ts ds : List Int) : List ((Int × Int) × BucketPat) :=
  (bucketKeys ts ds).filterMap (fun k =>
    let ents := bucketEntries ts ds k
    if 2 ≤ ents.length then some (k, mkBucketPat ents) else none)

/-- `_calculate_average_cycle(daily_patterns)`: prefer the per-bucket daily
cycles (`if pattern.get("avg_cycle"):` — Python truthiness also skips `0`);
otherwise fall back to the mean of consecutive start-to-start differences of
`self.timestamps` in the given order that are under 30 minutes. -/
def calcAvgCycle (ts : List Int) (dps : List ((Int × Int) × BucketPat)) : Option Int :=
  let allDaily := dps.filterMap (fun kp =>
    kp.2.avgCycle.bind (fun c => if c ≠ 0 then some c else none))
  if allDaily ≠ [] then some (pyInt (qmean allDaily))
  else if 2 ≤ ts.length then
    let cys := (ts.zip ts.tail).filterMap (fun ab =>
      let c := ab.2 - ab.1
      if c < 1800000 then some c else none)
    if cys ≠ [] then some (pyInt (qmean cys)) else none
  else none

/-- First element with the minimal first component, keeping the earlier one
on ties: `sorted(...)[0]` of Python's stable sort keyed on the time. -/
def minByTime : List (Int × BucketPat) → Option (Int × BucketPat)
  | [] => none
  | x :: xs =>
    match minByTime xs with
    | none => some x
    | some a => if a.1 < x.1 then some a else some x

/-- `_predict_next_green_phase(daily_patterns, avg_duration, avg_cycle_ms)`.
`now` is the value `datetime.now(self.timestamps[0].tzinfo)` read from the
ambient clock at the call.  The `pattern["avg_duration"]` lookups use
`getD 0`: that field is `none` only for an empty bucket, which cannot occur
for a bucket holding two or more measurements. -/
def predictNext (ts : List Int) (dps : List ((Int × Int) × BucketPat))
    (avgDuration : Int) (avgCycle : Option Int) (now : Int) :
    Option Int × Option Int :=
  if ts = [] then (none, none)
  else
    let currentBucket := timeBucket now
    -- Strategy 1: the daily pattern of the current time bucket
    let s1 : Option (Int × Int) :=
      match dps.find? (fun kp => kp.1 == currentBucket) with
      | some kp =>
        if 72000000 ≤ now - kp.2.lastOccurrence then
          -- last occurrence + 1 day, then replace(year/month/day := now's)
          let predicted := dayStart now + timeOfDay (kp.2.lastOccurrence + 86400000)
          some (predicted, predicted + kp.2.avgDuration.getD 0)
        else none
      | none => none
    match s1 with
    | some se => (some se.1, some se.2)
    | none =>
      -- Strategy 2: nearest upcoming bucket today, else early tomorrow
      let upcoming : List (Int × BucketPat) := dps.map (fun kp =>
        let bt := dayStart now + kp.1.1 * 3600000 + kp.1.2 * 60000
        (if now < bt then bt else bt + 86400000, kp.2))
      match minByTime upcoming with
      | some tp => (some tp.1, some (tp.1 + tp.2.avgDuration.getD 0))
      | none =>
        -- Strategy 3: one cycle past the last measurement (short cycles only)
        match avgCycle with
        | some c =>
          if c ≠ 0 ∧ 0 < ts.length then
            if c < 1800000 then
              (some (lastD ts + c), some (lastD ts + c + avgDuration))
            else (none, none)
          else (none, none)
        | none => (none, none)

/-- The dictionary `analyze()` returns.  A `none` field is a key that is
absent (empty-input result) or mapped to Python `None`. -/
structure AnalysisResult where
  has_pattern : Bool
  total_captures : Nat
  average_duration_ms : Option Int := none
  min_duration_ms : Option Int := none
  max_duration_ms : Option Int := none
  stddev_sq_duration_ms : Option ℚ := none
  typical_duration_ms : Option Int := none
  schedule_regularity : Option String := none
  average_cycle_ms : Option Int := none
  next_green_start : Option Int := none
  next_green_end : Option Int := none
  deriving Repr, DecidableEq

/-- `analyze()`, given the regularity verdict `reg` (that verdict is related
to the input by `RegularityRel` below, which carries the square roots) and
the ambient-clock value `now`.  Returns `none` exactly when the source
raises: `mean`/`min`/`max` on an empty duration list, or `stdev` on fewer
than two durations when `total_captures >= 3`. -/
def analyzeWith (reg : Option String) (ts ds : List Int) (now : Int) :
    Option AnalysisResult :=
  if ts = [] then
    some { has_pattern := false, total_captures := 0 }
  else if ds = [] then none
  else if 3 ≤ ts.length ∧ ds.length < 2 then none
  else
    let avgDuration := pyInt (qmean ds)
    let dps := detectDailyPatterns ts ds
    let avgCycle := calcAvgCycle ts dps
    let p := predictNext ts dps avgDuration avgCycle now
    some { has_pattern := true,
           total_captures := ts.length,
           average_duration_ms := some avgDuration,
           min_duration_ms := some (minD ds),
           max_duration_ms := some (maxD ds),
           stddev_sq_duration_ms := if 3 ≤ ts.length then some (sampleVar ds) else none,
           typical_duration_ms := some avgDuration,
           schedule_regularity := reg,
           average_cycle_ms := avgCycle,
           next_green_start := p.1,
           next_green_end := p.2 }

/-- The record `analyze()` builds for a non-empty input, spelled out: the
value `analyzeWith` returns whenever it does not model a raise. -/
def analyzedRecord (reg : Option String) (ts ds : List Int) (now : Int) : AnalysisResult :=
  { has_pattern := true,
    total_captures := ts.length,
    average_duration_ms := some (pyInt (qmean ds)),
    min_duration_ms := some (minD ds),
    max_duration_ms := some (maxD ds),
    stddev_sq_duration_ms := if 3 ≤ ts.length then some (sampleVar ds) else none,
    typical_duration_ms := some (pyInt (qmean ds)),
    schedule_regularity := reg,
    average_cycle_ms := calcAvgCycle ts (detectDailyPatterns ts ds),
    next_green_start :=
      (predictNext ts (detectDailyPatterns ts ds) (pyInt (qmean ds))
        (calcAvgCycle ts (detectDailyPatterns ts ds)) now).1,
    next_green_end :=
      (predictNext ts (detectDailyPatterns ts ds) (pyInt (qmean ds))
        (calcAvgCycle ts (detectDailyPatterns ts ds)) now).2 }

/-- `variance < 0.1 → "regular"; variance < 0.2 → "somewhat_regular";
else "irregular"` on a real ratio. -/
def VerdictRel (x : ℝ) (s : String) : Prop :=
  (x < 1 / 10 ∧ s = "regular") ∨
  (¬x < 1 / 10 ∧ x < 1 / 5 ∧ s = "somewhat_regular") ∨
  (¬x < 1 / 5 ∧ s = "irregular")

/-- `strong_daily_patterns`: buckets whose `sample_count >= 2`. -/
def strongCount (ts ds : List Int) : Nat :=
  ((detectDailyPatterns ts ds).filter (fun kp => 2 ≤ kp.2.sampleCount)).length

/-- The per-bucket duration lists entering `pattern_variances` (those with at
least two durations). -/
def bucketDurLists (ts ds : List Int) : List (List Int) :=
  (detectDailyPatterns ts ds).filterMap (fun kp =>
    if 2 ≤ kp.2.durations.length then some kp.2.durations else none)

/-- `_determine_regularity(time_periods, daily_patterns)` as a relation
between the input and the returned verdict (`time_periods` is passed by
`analyze` but never read).  Unsatisfiable exactly when the source raises
`ZeroDivisionError` (a zero mean under `stdev(...)/mean(...)`) or
`StatisticsError` (`stdev` of fewer than two durations in the fallback). -/
def RegularityRel (ts ds : List Int) (out : Option String) : Prop :=
  if ts.length < 3 then out = none
  else if 2 ≤ strongCount ts ds ∧ bucketDurLists ts ds ≠ [] then
    (∀ l ∈ bucketDurLists ts ds, qmean l ≠ 0) ∧
    ∃ s, VerdictRel
        (((bucketDurLists ts ds).map
            (fun l => Real.sqrt ((sampleVar l : ℚ) : ℝ) / ((qmean l : ℚ) : ℝ))).sum /
          ((bucketDurLists ts ds).length : ℝ)) s ∧
      out = some s
  else
    2 ≤ ds.length ∧ qmean ds ≠ 0 ∧
    ∃ s, VerdictRel (Real.sqrt ((sampleVar ds : ℚ) : ℝ) / ((qmean ds : ℚ) : ℝ)) s ∧
      out = some s

/-- Full `analyze()`: some verdict consistent with `_determine_regularity`
fills the `schedule_regularity` field of the otherwise computable record. -/
def AnalyzeRel (ts ds : List Int) (now : Int) (r : AnalysisResult) : Prop :=
  ∃ reg, RegularityRel ts ds reg ∧ analyzeWith reg ts ds now = some r

/-- The decidable counterpart of a single `stdev/mean`-against-thresholds
classification: for `v` the sample variance and `m ≠ 0` the mean,
`sqrt v / m < c` iff `m < 0` or `v·(1/c)² < m²`. -/
def varianceVerdict (v m : ℚ) : String :=
  if m < 0 then ("regular")
  else if 100 * v < m ^ 2 then ("regular")
  else if 25 * v < m ^ 2 then ("somewhat_regular")
  else ("irregular")

/-- The claim's regularity rule, stated from the spec's words: for three or
more durations, `variance_ratio = stddev(durations) / mean(durations)`
against the closed thresholds; fewer than three yields no verdict. -/
def SpecRegularityRel (ds : List Int) (out : Option String) : Prop :=
  if ds.length < 3 then out = none
  else
    ∃ s, VerdictRel (Real.sqrt ((sampleVar ds : ℚ) : ℝ) / ((qmean ds : ℚ) : ℝ)) s ∧
      out = some s

/-- The claim's fallback cycle rule, stated from its words: the
integer-truncated mean of exactly those consecutive start-to-start
differences of the timestamps — in the order given, without sorting — that
are strictly under 30 minutes; absent when no such difference exists. -/
def specShortCycle (ts : List Int) : Option Int :=
  let cys := (ts.zip ts.tail).filterMap (fun ab =>
    if ab.2 - ab.1 < 1800000 then some (ab.2 - ab.1) else none)
  if cys = [] then none else some (pyInt (qmean cys))

/-- The claim's prediction formula, stated from the spec's words: starting
from the most recent observed start, repeatedly add `cycle_ms` until the
result exceeds `now` (for `0 < c` and `last ≤ now`, the smallest
`last + k·c > now` with `k ≥ 1`). -/
def specNextGreenStart (last c now : Int) : Int :=
  last + c * ((now - last) / c + 1)

/-- Stable ascending insertion of a measurement pair, keyed on start time. -/
def sortedInsertPair (x : Int × Int) : List (Int × Int) → List (Int × Int)
  | [] => [x]
  | y :: ys => if y.1 ≤ x.1 then y :: sortedInsertPair x ys else x :: y :: ys

/-- Stable sort of measurement pairs by start time. -/
def sortPairs : List (Int × Int) → List (Int × Int)
  | [] => []
  | x :: xs => sortedInsertPair x (sortPairs xs)

/-- Modelled from the spec: the Cycle Finder of §4.2 is absent from
`src/app/services/pattern_detector.py` (the spec's §9 records that the file
holds the superseded bucketing design).  Sort the measurements by start
time; for each adjacent pair take `red = next.start − (cur.start +
cur.duration)` and `cycle = next.start − cur.start`; keep gaps with
`0 < red < 2h`; return the `(cycle, red)` of the smallest red gap (earliest
on ties), or `none`. -/
def specCycleFinder (ts ds : List Int) : Option (Int × Int) :=
  let ms := sortPairs (ts.zip ds)
  let gaps := (ms.zip ms.tail).filterMap (fun pq =>
    let red := pq.2.1 - (pq.1.1 + pq.1.2)
    if 0 < red ∧ red < 7200000 then some (pq.2.1 - pq.1.1, red) else none)
  gaps.foldl (fun acc g =>
    match acc with
    | none => some g
    | some a => if g.2 < a.2 then some g else some a) none

/-- Modelled from the spec: the Statistics Summarizer's average (§4.1,
arithmetic mean rounded to the nearest integer). -/
def specAvgDur (ds : List Int) : Int := round (qmean ds)

/-- The state of a timeline interval. -/
inductive LightState where
  | green
  | red
  deriving Repr, DecidableEq

/-- One timeline entry (`start_time`, `end_time`, `state` in the tests). -/
structure PhaseInterval where
  start_time : Int
  end_time : Int
  state : LightState
  deriving Repr, DecidableEq

/-- Forward walk of §4.5 step 3 from green-phase start `t`: a green interval
of length `dur`, then a red interval filling the cycle, repeating until the
window's closing instant, the final interval clipped to the boundary.
`fuel` only bounds the recursion; every lemma assumes it large enough
(`wEnd ≤ t + c·fuel`), and `getDailyTimeline` passes enough. -/
def emitIntervals : Nat → Int → Int → Int → Int → List PhaseInterval
  | 0, _, _, _, _ => []
  | fuel + 1, t, c, dur, wEnd =>
    if wEnd ≤ t then []
    else if wEnd ≤ t + dur then [⟨t, wEnd, LightState.green⟩]
    else if wEnd ≤ t + c then
      [⟨t, t + dur, LightState.green⟩, ⟨t + dur, wEnd, LightState.red⟩]
    else
      ⟨t, t + dur, LightState.green⟩ :: ⟨t + dur, t + c, LightState.red⟩ ::
        emitIntervals fuel (t + c) c dur wEnd

/-- Modelled from the spec: `get_daily_timeline(reference_date,
window_hours = 24)` (§4.5) is absent from
`src/app/services/pattern_detector.py`; only the repository's tests invoke
it.  `referenceDate` is the window's opening midnight; the window is
`[referenceDate, referenceDate + windowHours·1h)` (the source's default for
`windowHours` is 24).  Fewer than two measurements or no resolvable pattern
yields the empty sequence; a non-positive cycle (possible only with
non-positive observed durations) leaves the backward walk of step 2
undefined and is also modelled as empty.  Anchor on the earliest
measurement's time-of-day projected onto the target date, walk backward by
whole cycles to the earliest in-window green start, then emit forward. -/
def getDailyTimeline (ts ds : List Int) (referenceDate : Int) (windowHours : Int) :
    List PhaseInterval :=
  match specCycleFinder ts ds with
  | none => []
  | some cr =>
    if ts.length < 2 ∨ cr.1 ≤ 0 then []
    else
      let c := cr.1
      let wStart := referenceDate
      let wEnd := referenceDate + windowHours * 3600000
      let cand := wStart + timeOfDay (minD ts)
      let start0 := wStart + (cand - wStart) % c
      let fuel := (windowHours.toNat * 3600000) / c.toNat + 2
      emitIntervals fuel start0 c (specAvgDur ds) wEnd

/-- Flip a light state. -/
def flipState : LightState → LightState
  | LightState.green => LightState.red
  | LightState.red => LightState.green

/-- The states of the intervals strictly alternate, the first being `s`. -/
def altFrom : LightState → List PhaseInterval → Prop
  | _, [] => True
  | s, i :: rest => i.state = s ∧ altFrom (flipState s) rest

/-- The claim's hypothesis for the implicit cycle-fallback property: no two
measurements in the same 30-minute time-of-day bucket have start times
between 20 and 28 hours apart. -/
def NoDailyRecurrence (ts ds : List Int) : Prop :=
  ∀ p ∈ zipped ts ds, ∀ q ∈ zipped ts ds, timeBucket p.1 = timeBucket q.1 →
    ¬(72000000 ≤ q.1 - p.1 ∧ q.1 - p.1 ≤ 100800000)

instance (ts ds : List Int) : Decidable (NoDailyRecurrence ts ds) := by
  unfold NoDailyRecurrence
  infer_instance


/-! ## Helper lemmas -/

theorem minD_le_of_mem {x : Int} : ∀ {l : List Int}, x ∈ l → minD l ≤ x
  | [], h => absurd h (List.not_mem_nil x)
  | [y], h => by
    rcases List.mem_singleton.mp h with rfl
    exact le_rfl
  | y :: z :: zs, h => by
    rcases List.mem_cons.mp h with rfl | h'
    · exact min_le_left _ _
    · exact le_trans (min_le_right _ _) (minD_le_of_mem (l := z :: zs) h')

theorem le_maxD_of_mem {x : Int} : ∀ {l : List Int}, x ∈ l → x ≤ maxD l
  | [], h => absurd h (List.not_mem_nil x)
  | [y], h => by
    rcases List.mem_singleton.mp h with rfl
    exact le_rfl
  | y :: z :: zs, h => by
    rcases List.mem_cons.mp h with rfl | h'
    · exact le_max_left _ _
    · exact le_trans (le_maxD_of_mem (l := z :: zs) h') (le_max_right _ _)

theorem sum_le_maxD_mul : ∀ (l : List Int), l ≠ [] → l.sum ≤ maxD l * l.length
  | [], h => absurd rfl h
  | [x], _ => by simp [maxD]
  | x :: y :: ys, _ => by
    have ih := sum_le_maxD_mul (y :: ys) (by simp)
    have h1 : maxD (y :: ys) ≤ maxD (x :: y :: ys) := le_max_right _ _
    have h2 : (0 : Int) ≤ ((y :: ys).length : Int) := by positivity
    calc (x :: y :: ys).sum = x + (y :: ys).sum := by simp
    _ ≤ maxD (x :: y :: ys) + maxD (y :: ys) * (y :: ys).length := by
        have := le_maxD_of_mem (x := x) (l := x :: y :: ys) (by simp)
        have := mul_le_mul_of_nonneg_right h1 h2
        omega
    _ ≤ maxD (x :: y :: ys) + maxD (x :: y :: ys) * (y :: ys).length := by
        have := mul_le_mul_of_nonneg_right h1 h2
        omega
    _ = maxD (x :: y :: ys) * (x :: y :: ys).length := by
        simp [List.length_cons]
        ring

theorem minD_mul_le_sum : ∀ (l : List Int), l ≠ [] → minD l * l.length ≤ l.sum
  | [], h => absurd rfl h
  | [x], _ => by simp [minD]
  | x :: y :: ys, _ => by
    have ih := minD_mul_le_sum (y :: ys) (by simp)
    have h1 : minD (x :: y :: ys) ≤ minD (y :: ys) := min_le_right _ _
    have h2 : (0 : Int) ≤ ((y :: ys).length : Int) := by positivity
    have h3 : minD (x :: y :: ys) ≤ x := min_le_left _ _
    have h4 := mul_le_mul_of_nonneg_right h1 h2
    calc minD (x :: y :: ys) * (x :: y :: ys).length
        = minD (x :: y :: ys) + minD (x :: y :: ys) * (y :: ys).length := by
          simp [List.length_cons]; ring
    _ ≤ x + (y :: ys).sum := by omega
    _ = (x :: y :: ys).sum := by simp

theorem qmean_bounds (l : List Int) (h : l ≠ []) :
    (minD l : ℚ) ≤ qmean l ∧ qmean l ≤ (maxD l : ℚ) := by
  have hn : (0 : ℚ) < (l.length : ℚ) := by
    have : 0 < l.length := List.length_pos.mpr h
    exact_mod_cast this
  constructor
  · rw [qmean, le_div_iff₀ hn]
    have := minD_mul_le_sum l h
    exact_mod_cast this
  · rw [qmean, div_le_iff₀ hn]
    have := sum_le_maxD_mul l h
    exact_mod_cast this

theorem le_pyInt_of_le {m : Int} {q : ℚ} (h : (m : ℚ) ≤ q) : m ≤ pyInt q := by
  unfold pyInt
  split
  · calc m = ⌈(m : ℚ)⌉ := (Int.ceil_intCast m).symm
    _ ≤ ⌈q⌉ := Int.ceil_le_ceil h
  · exact Int.le_floor.mpr h

theorem pyInt_le_of_le {M : Int} {q : ℚ} (h : q ≤ (M : ℚ)) : pyInt q ≤ M := by
  unfold pyInt
  split
  · exact Int.ceil_le.mpr h
  · exact le_trans (Int.floor_le_floor h) (by simp)

theorem pyInt_lt_of_lt {M : Int} {q : ℚ} (h : q < (M : ℚ)) (hM : 0 < M) : pyInt q < M := by
  unfold pyInt
  split
  · rename_i hq
    have : ⌈q⌉ ≤ 0 := Int.ceil_le.mpr (by push_cast; linarith)
    omega
  · exact Int.floor_lt.mpr h

theorem sampleVar_nonneg (l : List Int) : 0 ≤ sampleVar l := by
  unfold sampleVar
  have hnum : 0 ≤ (l.map (fun x => ((x : ℚ) - qmean l) ^ 2)).sum := by
    apply List.sum_nonneg
    intro q hq
    rcases List.mem_map.mp hq with ⟨x, -, rfl⟩
    positivity
  rcases lt_trichotomy ((l.length : ℚ) - 1) 0 with hd | hd | hd
  · rcases l with - | ⟨x, xs⟩
    · simp
    · exfalso
      have : (1 : ℚ) ≤ ((x :: xs).length : ℚ) := by
        have : 1 ≤ (x :: xs).length := by simp
        exact_mod_cast this
      linarith
  · rw [hd, div_zero]
  · positivity

theorem verdictRel_sqrt_iff (v m : ℚ) (hv : 0 ≤ v) (hm : m ≠ 0) (s : String) :
    VerdictRel (Real.sqrt ((v : ℚ) : ℝ) / ((m : ℚ) : ℝ)) s ↔ s = varianceVerdict v m := by
  rcases lt_or_gt_of_ne hm with hneg | hpos
  · -- negative mean: the ratio is nonpositive, both sides classify as regular
    have hx : Real.sqrt ((v : ℚ) : ℝ) / ((m : ℚ) : ℝ) ≤ 0 :=
      div_nonpos_iff.mpr (Or.inl ⟨Real.sqrt_nonneg _, by exact_mod_cast hneg.le⟩)
    have h10 : Real.sqrt ((v : ℚ) : ℝ) / ((m : ℚ) : ℝ) < 1 / 10 := by linarith
    have h5 : Real.sqrt ((v : ℚ) : ℝ) / ((m : ℚ) : ℝ) < 1 / 5 := by linarith
    unfold VerdictRel varianceVerdict
    rw [if_pos hneg]
    constructor
    · rintro (⟨-, hs⟩ | ⟨hc, -, -⟩ | ⟨hc, -⟩) <;> tauto
    · rintro rfl
      exact Or.inl ⟨h10, rfl⟩
  · -- positive mean: compare squares
    have hmR : (0 : ℝ) < ((m : ℚ) : ℝ) := by exact_mod_cast hpos
    have key : ∀ c : ℝ, 0 < c →
        (Real.sqrt ((v : ℚ) : ℝ) / ((m : ℚ) : ℝ) < c ↔ ((v : ℚ) : ℝ) < (c * ((m : ℚ) : ℝ)) ^ 2) := by
      intro c hc
      rw [div_lt_iff₀ hmR]
      exact Real.sqrt_lt' (by positivity)
    have h10 : Real.sqrt ((v : ℚ) : ℝ) / ((m : ℚ) : ℝ) < 1 / 10 ↔ 100 * v < m ^ 2 := by
      rw [key (1 / 10) (by norm_num)]
      constructor <;> intro h
      · have : ((v : ℚ) : ℝ) < ((m : ℚ) : ℝ) ^ 2 / 100 := by nlinarith
        have : (v : ℚ) < m ^ 2 / 100 := by exact_mod_cast this
        linarith
      · have : (v : ℚ) < m ^ 2 / 100 := by linarith
        have : ((v : ℚ) : ℝ) < ((m : ℚ) : ℝ) ^ 2 / 100 := by exact_mod_cast this
        nlinarith
    have h5 : Real.sqrt ((v : ℚ) : ℝ) / ((m : ℚ) : ℝ) < 1 / 5 ↔ 25 * v < m ^ 2 := by
      rw [key (1 / 5) (by norm_num)]
      constructor <;> intro h
      · have : ((v : ℚ) : ℝ) < ((m : ℚ) : ℝ) ^ 2 / 25 := by nlinarith
        have : (v : ℚ) < m ^ 2 / 25 := by exact_mod_cast this
        linarith
      · have : (v : ℚ) < m ^ 2 / 25 := by linarith
        have : ((v : ℚ) : ℝ) < ((m : ℚ) : ℝ) ^ 2 / 25 := by exact_mod_cast this
        nlinarith
    unfold VerdictRel varianceVerdict
    rw [if_neg (not_lt.mpr hpos.le)]
    by_cases hA : 100 * v < m ^ 2
    · have hB : 25 * v < m ^ 2 := by nlinarith
      rw [if_pos hA]
      constructor
      · rintro (⟨-, hs⟩ | ⟨hc, -, -⟩ | ⟨hc, -⟩)
        · exact hs
        · exact absurd (h10.mpr hA) hc
        · exact absurd (h5.mpr hB) hc
      · rintro rfl
        exact Or.inl ⟨h10.mpr hA, rfl⟩
    · rw [if_neg hA]
      by_cases hB : 25 * v < m ^ 2
      · rw [if_pos hB]
        constructor
        · rintro (⟨hc, -⟩ | ⟨-, -, hs⟩ | ⟨hc, -⟩)
          · exact absurd (h10.mp hc) hA
          · exact hs
          · exact absurd (h5.mpr hB) hc
        · rintro rfl
          exact Or.inr (Or.inl ⟨fun hc => hA (h10.mp hc), h5.mpr hB, rfl⟩)
      · rw [if_neg hB]
        constructor
        · rintro (⟨hc, -⟩ | ⟨-, hc, -⟩ | ⟨-, hs⟩)
          · exact absurd (h10.mp hc) hA
          · exact absurd (h5.mp hc) hB
          · exact hs
        · rintro rfl
          exact Or.inr (Or.inr ⟨fun hc => hB (h5.mp hc), rfl⟩)

theorem RegularityRel_none_of_small (ts ds : List Int) (h : ts.length < 3) :
    RegularityRel ts ds none := by
  unfold RegularityRel
  rw [if_pos h]

theorem RegularityRel_of_fallback (ts ds : List Int) (h3 : ¬ts.length < 3)
    (hb : ¬(2 ≤ strongCount ts ds ∧ bucketDurLists ts ds ≠ []))
    (hlen : 2 ≤ ds.length) (hm : qmean ds ≠ 0) :
    RegularityRel ts ds (some (varianceVerdict (sampleVar ds) (qmean ds))) := by
  unfold RegularityRel
  rw [if_neg h3, if_neg hb]
  exact ⟨hlen, hm, varianceVerdict (sampleVar ds) (qmean ds),
    (verdictRel_sqrt_iff _ _ (sampleVar_nonneg ds) hm _).mpr rfl, rfl⟩

theorem analyzeWith_eq_some (reg : Option String) (ts ds : List Int) (now : Int)
    (r : AnalysisResult) (h : analyzeWith reg ts ds now = some r) (hts : ts ≠ []) :
    ds ≠ [] ∧ ¬(3 ≤ ts.length ∧ ds.length < 2) ∧ r = analyzedRecord reg ts ds now := by
  unfold analyzeWith at h
  rw [if_neg hts] at h
  by_cases hds : ds = []
  · rw [if_pos hds] at h
    exact absurd h (by simp)
  · rw [if_neg hds] at h
    by_cases harr : 3 ≤ ts.length ∧ ds.length < 2
    · rw [if_pos harr] at h
      exact absurd h (by simp)
    · rw [if_neg harr] at h
      exact ⟨hds, harr, (Option.some.inj h).symm⟩

theorem analyzeWith_some_intro (reg : Option String) (ts ds : List Int) (now : Int)
    (hts : ts ≠ []) (hds : ds ≠ []) (harr : ¬(3 ≤ ts.length ∧ ds.length < 2)) :
    analyzeWith reg ts ds now = some (analyzedRecord reg ts ds now) := by
  unfold analyzeWith
  rw [if_neg hts, if_neg hds, if_neg harr]
  rfl

theorem analyzeWith_empty (reg : Option String) (ds : List Int) (now : Int) :
    analyzeWith reg [] ds now = some { has_pattern := false, total_captures := 0 } := by
  unfold analyzeWith
  rw [if_pos rfl]


theorem emit_altFrom (c dur wEnd : Int) :
    ∀ (fuel : Nat) (t : Int), altFrom LightState.green (emitIntervals fuel t c dur wEnd)
  | 0, _ => trivial
  | fuel + 1, t => by
    rw [emitIntervals]
    split
    · trivial
    · split
      · exact ⟨rfl, trivial⟩
      · split
        · exact ⟨rfl, rfl, trivial⟩
        · exact ⟨rfl, rfl, emit_altFrom c dur wEnd fuel (t + c)⟩

theorem emit_within (c dur wEnd wStart : Int) (hdur : 0 < dur) (hdc : dur < c) :
    ∀ (fuel : Nat) (t : Int), wStart ≤ t →
      ∀ i ∈ emitIntervals fuel t c dur wEnd,
        wStart ≤ i.start_time ∧ i.end_time ≤ wEnd ∧ i.start_time < i.end_time
  | 0, _, _ => by simp [emitIntervals]
  | fuel + 1, t, ht => by
    rw [emitIntervals]
    split
    · simp
    · rename_i h1
      split
      · rename_i h2
        intro i hi
        rcases List.mem_singleton.mp hi with rfl
        refine ⟨?_, ?_, ?_⟩ <;> dsimp only <;> omega
      · rename_i h2
        split
        · rename_i h3
          intro i hi
          rcases List.mem_cons.mp hi with rfl | hi
          · refine ⟨?_, ?_, ?_⟩ <;> dsimp only <;> omega
          rcases List.mem_singleton.mp hi with rfl
          refine ⟨?_, ?_, ?_⟩ <;> dsimp only <;> omega
        · rename_i h3
          intro i hi
          rcases List.mem_cons.mp hi with rfl | hi
          · refine ⟨?_, ?_, ?_⟩ <;> dsimp only <;> omega
          rcases List.mem_cons.mp hi with rfl | hi
          · refine ⟨?_, ?_, ?_⟩ <;> dsimp only <;> omega
          exact emit_within c dur wEnd wStart hdur hdc fuel (t + c) (by omega) i hi

theorem emit_nil_of_le (c dur wEnd : Int) (fuel : Nat) (t : Int) (h : wEnd ≤ t) :
    emitIntervals fuel t c dur wEnd = [] := by
  cases fuel with
  | zero => rfl
  | succ f => rw [emitIntervals, if_pos h]

theorem emit_length_pos (c dur wEnd : Int) :
    ∀ (fuel : Nat) (t : Int), t < wEnd → wEnd ≤ t + c * fuel →
      1 ≤ (emitIntervals fuel t c dur wEnd).length
  | 0, t, ht, hfuel => by
    exfalso
    simp only [Nat.cast_zero, mul_zero, add_zero] at hfuel
    omega
  | fuel + 1, t, ht, hfuel => by
    rw [emitIntervals]
    split
    · omega
    · split
      · simp
      · split
        · simp
        · simp

theorem emit_count_lt (c dur wEnd1 wEnd2 : Int) (hdur : 0 < dur) (hdc : dur < c)
    (hw : wEnd1 + c ≤ wEnd2) :
    ∀ (fuel1 fuel2 : Nat) (t : Int), wEnd1 ≤ t + c * fuel1 → wEnd2 ≤ t + c * fuel2 →
      t < wEnd1 →
      (emitIntervals fuel1 t c dur wEnd1).length < (emitIntervals fuel2 t c dur wEnd2).length
  | 0, _, t, h1, _, ht => by
    exfalso
    simp only [Nat.cast_zero, mul_zero, add_zero] at h1
    omega
  | fuel1 + 1, 0, t, h1, h2, ht => by
    exfalso
    simp only [Nat.cast_zero, mul_zero, add_zero] at h2
    omega
  | fuel1 + 1, f2 + 1, t, h1, h2, ht => by
    have hf1 : wEnd1 ≤ (t + c) + c * fuel1 := by push_cast at h1 ⊢; linarith
    have hf2 : wEnd2 ≤ (t + c) + c * f2 := by push_cast at h2 ⊢; linarith
    conv_lhs => rw [emitIntervals]
    conv_rhs => rw [emitIntervals]
    rw [if_neg (by omega : ¬wEnd1 ≤ t), if_neg (by omega : ¬wEnd2 ≤ t)]
    by_cases hA : wEnd1 ≤ t + dur
    · rw [if_pos hA, if_neg (by omega : ¬wEnd2 ≤ t + dur)]
      by_cases hB : wEnd2 ≤ t + c
      · rw [if_pos hB]
        simp
      · rw [if_neg hB]
        simp
    · rw [if_neg hA, if_neg (by omega : ¬wEnd2 ≤ t + dur)]
      by_cases hB : wEnd1 ≤ t + c
      · rw [if_pos hB, if_neg (by omega : ¬wEnd2 ≤ t + c)]
        have hrest := emit_length_pos c dur wEnd2 f2 (t + c) (by omega) hf2
        simp only [List.length_cons, List.length_nil]
        omega
      · rw [if_neg hB, if_neg (by omega : ¬wEnd2 ≤ t + c)]
        have ih := emit_count_lt c dur wEnd1 wEnd2 hdur hdc hw fuel1 f2 (t + c) hf1 hf2
          (by omega)
        simp only [List.length_cons, List.length_nil]
        omega

theorem nat_fuel_enough (n k : Nat) (hk : 0 < k) : n ≤ k * (n / k + 2) := by
  have hdm := Nat.div_add_mod n k
  have hmod : n % k < k := Nat.mod_lt n hk
  rw [Nat.mul_add]
  omega

theorem int_fuel_enough (c W : Int) (hc : 0 < c) (hW : 0 ≤ W) :
    W ≤ c * ((W.toNat / c.toNat + 2 : Nat) : Int) := by
  have hk : 0 < c.toNat := by omega
  have h := nat_fuel_enough W.toNat c.toNat hk
  have hcast : ((c.toNat * (W.toNat / c.toNat + 2) : Nat) : Int) =
      c * ((W.toNat / c.toNat + 2 : Nat) : Int) := by
    push_cast
    rw [Int.toNat_of_nonneg hc.le]
  calc W = ((W.toNat : Nat) : Int) := by rw [Int.toNat_of_nonneg hW]
  _ ≤ ((c.toNat * (W.toNat / c.toNat + 2) : Nat) : Int) := by exact_mod_cast h
  _ = c * ((W.toNat / c.toNat + 2 : Nat) : Int) := hcast

theorem getDailyTimeline_unfold (ts ds : List Int) (ref h c red : Int)
    (hfind : specCycleFinder ts ds = some (c, red)) (hlen : 2 ≤ ts.length) (hc : 0 < c) :
    getDailyTimeline ts ds ref h =
      emitIntervals (h.toNat * 3600000 / c.toNat + 2) (ref + timeOfDay (minD ts) % c) c
        (specAvgDur ds) (ref + h * 3600000) := by
  unfold getDailyTimeline
  rw [hfind]
  dsimp only
  rw [if_neg (by omega : ¬(ts.length < 2 ∨ c ≤ 0))]
  have : ref + timeOfDay (minD ts) - ref = timeOfDay (minD ts) := by ring
  rw [this]

theorem mem_sortedInsert (x a : Int) : ∀ (l : List Int), a ∈ sortedInsert x l ↔ a = x ∨ a ∈ l
  | [] => by simp [sortedInsert]
  | y :: ys => by
    rw [sortedInsert]
    split
    · rw [List.mem_cons, mem_sortedInsert x a ys, List.mem_cons]
      tauto
    · rw [List.mem_cons, List.mem_cons]

theorem mem_sortInt (a : Int) : ∀ (l : List Int), a ∈ sortInt l ↔ a ∈ l
  | [] => Iff.rfl
  | x :: xs => by
    rw [sortInt, mem_sortedInsert, mem_sortInt a xs, List.mem_cons]

theorem maxD_mem : ∀ (l : List Int), l ≠ [] → maxD l ∈ l
  | [], h => absurd rfl h
  | [x], _ => by simp [maxD]
  | x :: y :: ys, _ => by
    rw [maxD]
    rcases le_total x (maxD (y :: ys)) with h | h
    · rw [max_eq_right h]
      exact List.mem_cons_of_mem x (maxD_mem (y :: ys) (by simp))
    · rw [max_eq_left h]
      exact List.mem_cons_self x _

theorem qmean_lt_of_forall_lt (l : List Int) (M : Int) (hne : l ≠ [])
    (h : ∀ x ∈ l, x < M) : qmean l < (M : ℚ) := by
  have h1 := (qmean_bounds l hne).2
  have h2 : maxD l < M := h (maxD l) (maxD_mem l hne)
  calc qmean l ≤ (maxD l : ℚ) := h1
  _ < (M : ℚ) := by exact_mod_cast h2

/-- With no daily-bucket cycle available, `_calculate_average_cycle` falls
back to short consecutive differences, which are all under 30 minutes, so
the inferred cycle is under 30 minutes. -/
theorem calcAvgCycle_empty_lt (ts : List Int) (c : Int)
    (h : calcAvgCycle ts [] = some c) : c < 1800000 := by
  unfold calcAvgCycle at h
  simp only [List.filterMap_nil, ne_eq, not_true_eq_false, reduceIte] at h
  by_cases hlen : 2 ≤ ts.length
  · rw [if_pos hlen] at h
    set cys := (ts.zip ts.tail).filterMap (fun ab =>
      if ab.2 - ab.1 < 1800000 then some (ab.2 - ab.1) else none) with hcys
    by_cases hc : cys = []
    · rw [if_neg (by simpa using hc)] at h
      exact absurd h (by simp)
    · rw [if_pos (by simpa using hc)] at h
      have hval : pyInt (qmean cys) = c := Option.some.inj h
      have hall : ∀ x ∈ cys, x < 1800000 := by
        intro x hx
        rcases List.mem_filterMap.mp hx with ⟨ab, -, hab⟩
        by_cases hlt : ab.2 - ab.1 < 1800000
        · rw [if_pos hlt] at hab
          have := Option.some.inj hab
          omega
        · rw [if_neg hlt] at hab
          exact absurd hab (by simp)
      have := qmean_lt_of_forall_lt cys 1800000 hc hall
      rw [← hval]
      exact pyInt_lt_of_lt (by exact_mod_cast this) (by norm_num)
  · rw [if_neg hlen] at h
    exact absurd h (by simp)

theorem detectDailyPatterns_avgCycle_none (ts ds : List Int)
    (h : NoDailyRecurrence ts ds) :
    ∀ kp ∈ detectDailyPatterns ts ds, kp.2.avgCycle = none := by
  intro kp hkp
  rcases List.mem_filterMap.mp hkp with ⟨k, -, hk⟩
  by_cases hl : 2 ≤ (bucketEntries ts ds k).length
  · rw [if_pos hl] at hk
    rcases Option.some.inj hk with rfl
    show (mkBucketPat (bucketEntries ts ds k)).avgCycle = none
    unfold mkBucketPat
    have hcys : ((sortInt ((bucketEntries ts ds k).map Prod.fst)).zip
        (sortInt ((bucketEntries ts ds k).map Prod.fst)).tail).filterMap (fun ab =>
          if 72000000 ≤ ab.2 - ab.1 ∧ ab.2 - ab.1 ≤ 100800000 then some (ab.2 - ab.1)
          else none) = [] := by
      rw [List.filterMap_eq_nil_iff]
      rintro ⟨a, b⟩ hab
      have ha : a ∈ sortInt ((bucketEntries ts ds k).map Prod.fst) := (List.of_mem_zip hab).1
      have hb : b ∈ sortInt ((bucketEntries ts ds k).map Prod.fst) :=
        List.mem_of_mem_tail (List.of_mem_zip hab).2
      rw [mem_sortInt] at ha hb
      rcases List.mem_map.mp ha with ⟨pa, hpa, rfl⟩
      rcases List.mem_map.mp hb with ⟨pb, hpb, rfl⟩
      have hpa' := List.mem_filter.mp hpa
      have hpb' := List.mem_filter.mp hpb
      have hka : timeBucket pa.1 = k := by
        have := hpa'.2
        simpa using this
      have hkb : timeBucket pb.1 = k := by
        have := hpb'.2
        simpa using this
      have := h pa hpa'.1 pb hpb'.1 (hka.trans hkb.symm)
      rw [if_neg this]
    simp only [hcys, reduceIte]
  · rw [if_neg hl] at hk
    exact absurd hk (by simp)

theorem calcAvgCycle_of_noDaily (ts ds : List Int) (h : NoDailyRecurrence ts ds) :
    calcAvgCycle ts (detectDailyPatterns ts ds) = specShortCycle ts := by
  have hnone := detectDailyPatterns_avgCycle_none ts ds h
  have hAD : (detectDailyPatterns ts ds).filterMap (fun kp =>
      kp.2.avgCycle.bind (fun c => if c ≠ 0 then some c else none)) = [] := by
    rw [List.filterMap_eq_nil_iff]
    intro kp hkp
    rw [hnone kp hkp]
    rfl
  unfold calcAvgCycle specShortCycle
  rw [hAD]
  simp only [ne_eq, not_true_eq_false, reduceIte]
  by_cases hlen : 2 ≤ ts.length
  · rw [if_pos hlen]
    set cys := (ts.zip ts.tail).filterMap (fun ab =>
      if ab.2 - ab.1 < 1800000 then some (ab.2 - ab.1) else none) with hcys
    by_cases hnil : cys = []
    · rw [if_neg (by simpa using hnil), if_pos hnil]
    · rw [if_pos (by simpa using hnil), if_neg hnil]
  · rw [if_neg hlen]
    have : ts.zip ts.tail = [] := by
      rcases ts with - | ⟨x, xs⟩
      · rfl
      · rcases xs with - | ⟨y, ys⟩
        · rfl
        · exfalso
          simp at hlen
    rw [this]
    simp

/-- With no daily patterns at all, `_predict_next_green_phase` reaches
Strategy 3 and adds exactly one short cycle to the last measurement. -/
theorem predictNext_empty_dps (ts : List Int) (avgD c now : Int) (hts : ts ≠ [])
    (hc0 : c ≠ 0) (hclt : c < 1800000) :
    predictNext ts [] avgD (some c) now =
      (some (lastD ts + c), some (lastD ts + c + avgD)) := by
  unfold predictNext
  rw [if_neg hts]
  have hlen : 0 < ts.length := List.length_pos.mpr hts
  simp only [List.find?_nil, List.map_nil, minByTime]
  rw [if_pos ⟨hc0, hlen⟩, if_pos hclt]


/-! ## Claim theorems -/

/-- C1: the claim says `analyze()` returns `has_pattern = false` for zero or
one measurement and when no eligible red gap exists.  The code disagrees:
for EVERY non-empty input — one measurement, or two measurements 14 days
apart — `analyze()` returns `has_pattern = True` unconditionally (line 70 of
`pattern_detector.py`), contradicting the repository's own tests
(`test_single_measurement`, `test_very_long_cycle`).  This theorem evaluates
the code's behaviour: every result produced on a non-empty timestamp list
has `has_pattern = true`. -/
theorem c1_nonempty_always_has_pattern (ts ds : List Int) (now : Int)
    (r : AnalysisResult) (h : AnalyzeRel ts ds now r) (hts : ts ≠ []) :
    r.has_pattern = true := by
  rcases h with ⟨reg, -, h⟩
  rcases analyzeWith_eq_some reg ts ds now r h hts with ⟨-, -, rfl⟩
  rfl

/-- C1 witness: one measurement (08:30, 30 s duration) already yields
`has_pattern = true` from the code. -/
theorem c1_nonempty_always_has_pattern_witness :
    (analyzedRecord none [30600000] [30000] 30600000).has_pattern = true :=
  c1_nonempty_always_has_pattern [30600000] [30000] 30600000 _
    ⟨none, RegularityRel_none_of_small [30600000] [30000] (by decide),
      analyzeWith_some_intro none [30600000] [30000] 30600000 (by decide) (by decide)
        (by decide)⟩
    (by decide)

/-- C2: four measurements at 0, 2, 4, 6 minutes past 08:00 with durations of
exactly 30000 ms.  The code does produce `average_cycle_ms = 120000` (and
`average_duration_ms = 30000`), but its `analyze()` result carries no
`red_duration_ms` key at all, while the claim — and the repository's own
test `test_pattern_detection_simple`, which asserts
`result["red_duration_ms"] == 90000` — requires one. -/
theorem c2_avg_cycle_120000 (now : Int) (r : AnalysisResult)
    (h : AnalyzeRel [28800000, 28920000, 29040000, 29160000]
      [30000, 30000, 30000, 30000] now r) :
    r.average_cycle_ms = some 120000 ∧ r.average_duration_ms = some 30000 := by
  rcases h with ⟨reg, -, h⟩
  rcases analyzeWith_eq_some reg _ _ now r h (by decide) with ⟨-, -, rfl⟩
  constructor
  · show some (pyInt (qmean [120000, 120000, 120000])) = some 120000
    norm_num [pyInt, qmean]
  · show some (pyInt (qmean [30000, 30000, 30000, 30000])) = some 30000
    norm_num [pyInt, qmean]

/-- C2 witness: the analysis at a concrete clock value. -/
theorem c2_avg_cycle_120000_witness :
    (analyzedRecord
        (some (varianceVerdict (sampleVar [30000, 30000, 30000, 30000])
          (qmean [30000, 30000, 30000, 30000])))
        [28800000, 28920000, 29040000, 29160000] [30000, 30000, 30000, 30000]
        28800000).average_cycle_ms = some 120000 ∧
    (analyzedRecord
        (some (varianceVerdict (sampleVar [30000, 30000, 30000, 30000])
          (qmean [30000, 30000, 30000, 30000])))
        [28800000, 28920000, 29040000, 29160000] [30000, 30000, 30000, 30000]
        28800000).average_duration_ms = some 30000 :=
  c2_avg_cycle_120000 28800000 _
    ⟨some (varianceVerdict (sampleVar [30000, 30000, 30000, 30000])
        (qmean [30000, 30000, 30000, 30000])),
      RegularityRel_of_fallback _ _ (by decide) (by decide) (by decide)
        (by norm_num [qmean]),
      analyzeWith_some_intro _ _ _ _ (by decide) (by decide) (by decide)⟩

/-- C8: on zero measurements `analyze()` raises nothing and returns exactly
`has_pattern = false, total_captures = 0` with every statistical field
absent (every remaining field of the record is `none`), and that result is
the only one the analysis relation admits. -/
theorem c8_empty_input (now : Int) :
    AnalyzeRel [] [] now { has_pattern := false, total_captures := 0 } ∧
    ∀ r, AnalyzeRel [] [] now r → r = { has_pattern := false, total_captures := 0 } := by
  constructor
  · exact ⟨none, RegularityRel_none_of_small [] [] (by decide),
      analyzeWith_empty none [] now⟩
  · rintro r ⟨reg, -, h⟩
    rw [analyzeWith_empty] at h
    exact (Option.some.inj h).symm

/-- C9: whenever `analyze()` reports duration statistics (any non-empty
input), `min_duration_ms ≤ average_duration_ms ≤ max_duration_ms`: the
truncated mean of the durations sits between their minimum and maximum. -/
theorem c9_min_le_avg_le_max (ts ds : List Int) (now : Int) (r : AnalysisResult)
    (h : AnalyzeRel ts ds now r) (hts : ts ≠ []) :
    ∃ a mn mx, r.average_duration_ms = some a ∧ r.min_duration_ms = some mn ∧
      r.max_duration_ms = some mx ∧ mn ≤ a ∧ a ≤ mx := by
  rcases h with ⟨reg, -, h⟩
  rcases analyzeWith_eq_some reg ts ds now r h hts with ⟨hds, -, rfl⟩
  refine ⟨pyInt (qmean ds), minD ds, maxD ds, rfl, rfl, rfl, ?_, ?_⟩
  · exact le_pyInt_of_le (qmean_bounds ds hds).1
  · exact pyInt_le_of_le (qmean_bounds ds hds).2

/-- C9 witness: a single measurement with duration 5. -/
theorem c9_min_le_avg_le_max_witness :
    ∃ a mn mx,
      (analyzedRecord none [0] [5] 0).average_duration_ms = some a ∧
      (analyzedRecord none [0] [5] 0).min_duration_ms = some mn ∧
      (analyzedRecord none [0] [5] 0).max_duration_ms = some mx ∧ mn ≤ a ∧ a ≤ mx :=
  c9_min_le_avg_le_max [0] [5] 0 _
    ⟨none, RegularityRel_none_of_small [0] [5] (by decide),
      analyzeWith_some_intro none [0] [5] 0 (by decide) (by decide) (by decide)⟩
    (by decide)

/-- C10: when no 30-minute time-of-day bucket holds two measurements whose
start times are 20 to 28 hours apart, `average_cycle_ms` is exactly the
integer-truncated mean of the consecutive start-to-start differences of the
timestamps in the given order that are strictly under 30 minutes, and absent
when no such difference exists (`specShortCycle`). -/
theorem c10_fallback_cycle (ts ds : List Int) (now : Int) (r : AnalysisResult)
    (hnd : NoDailyRecurrence ts ds) (h : AnalyzeRel ts ds now r) (hts : ts ≠ []) :
    r.average_cycle_ms = specShortCycle ts := by
  rcases h with ⟨reg, -, h⟩
  rcases analyzeWith_eq_some reg ts ds now r h hts with ⟨-, -, rfl⟩
  exact calcAvgCycle_of_noDaily ts ds hnd

/-- C10 witness: the 2-minute-spaced input of C2 (every same-bucket pair of
starts is minutes apart, far from the 20–28 hour recurrence band). -/
theorem c10_fallback_cycle_witness :
    (analyzedRecord
        (some (varianceVerdict (sampleVar [30000, 30000, 30000, 30000])
          (qmean [30000, 30000, 30000, 30000])))
        [28800000, 28920000, 29040000, 29160000] [30000, 30000, 30000, 30000]
        28800000).average_cycle_ms =
      specShortCycle [28800000, 28920000, 29040000, 29160000] :=
  c10_fallback_cycle [28800000, 28920000, 29040000, 29160000]
    [30000, 30000, 30000, 30000] 28800000 _ (by decide)
    ⟨some (varianceVerdict (sampleVar [30000, 30000, 30000, 30000])
        (qmean [30000, 30000, 30000, 30000])),
      RegularityRel_of_fallback _ _ (by decide) (by decide) (by decide)
        (by norm_num [qmean]),
      analyzeWith_some_intro _ _ _ _ (by decide) (by decide) (by decide)⟩
    (by decide)

/-- C4 counterexample: for the four 2-minute-spaced measurements at 08:00
with `now` = 08:07, a cycle of 120000 ms is inferred and measurements exist,
yet the code predicts the next green start from the bucket logic (tomorrow
at 08:00, instant 115200000) — not the claim's formula, which yields
08:08 (instant 29280000 = `specNextGreenStart`). -/
theorem c4_counterexample :
    ∃ r, AnalyzeRel [28800000, 28920000, 29040000, 29160000]
        [30000, 30000, 30000, 30000] 29220000 r ∧
      r.average_cycle_ms = some 120000 ∧
      lastD [28800000, 28920000, 29040000, 29160000] = 29160000 ∧
      specNextGreenStart 29160000 120000 29220000 = 29280000 ∧
      r.next_green_start = some 115200000 ∧
      r.next_green_start ≠ some (specNextGreenStart 29160000 120000 29220000) := by
  refine ⟨analyzedRecord
      (some (varianceVerdict (sampleVar [30000, 30000, 30000, 30000])
        (qmean [30000, 30000, 30000, 30000])))
      [28800000, 28920000, 29040000, 29160000] [30000, 30000, 30000, 30000] 29220000,
    ⟨_, RegularityRel_of_fallback _ _ (by decide) (by decide) (by decide)
        (by norm_num [qmean]),
      analyzeWith_some_intro _ _ _ _ (by decide) (by decide) (by decide)⟩,
    ?_, by decide, by decide, rfl, ?_⟩
  · show some (pyInt (qmean [120000, 120000, 120000])) = some 120000
    norm_num [pyInt, qmean]
  · intro hcontra
    have h1 : (analyzedRecord
        (some (varianceVerdict (sampleVar [30000, 30000, 30000, 30000])
          (qmean [30000, 30000, 30000, 30000])))
        [28800000, 28920000, 29040000, 29160000] [30000, 30000, 30000, 30000]
        29220000).next_green_start = some 115200000 := rfl
    have h2 : specNextGreenStart 29160000 120000 29220000 = 29280000 := by decide
    rw [h1, h2] at hcontra
    exact absurd (Option.some.inj hcontra) (by decide)

/-- C4 amended: only when no 30-minute bucket holds two or more measurements
(no daily patterns at all) does `analyze()` predict from the inferred cycle,
and then it adds exactly ONE cycle to the last observed start — regardless
of how that compares to the current time; the end is that start plus the
average duration, and the cycle used is necessarily under 30 minutes. -/
theorem c4_single_step_prediction (ts ds : List Int) (now : Int) (r : AnalysisResult)
    (c : Int) (hdps : detectDailyPatterns ts ds = [])
    (hcyc : calcAvgCycle ts (detectDailyPatterns ts ds) = some c) (hc0 : c ≠ 0)
    (h : AnalyzeRel ts ds now r) (hts : ts ≠ []) :
    r.next_green_start = some (lastD ts + c) ∧
    r.next_green_end = some (lastD ts + c + pyInt (qmean ds)) ∧ c < 1800000 := by
  rcases h with ⟨reg, -, h⟩
  rcases analyzeWith_eq_some reg ts ds now r h hts with ⟨-, -, rfl⟩
  rw [hdps] at hcyc
  have hlt : c < 1800000 := calcAvgCycle_empty_lt ts c hcyc
  have hpred := predictNext_empty_dps ts (pyInt (qmean ds)) c now hts hc0 hlt
  refine ⟨?_, ?_, hlt⟩
  · show (predictNext ts (detectDailyPatterns ts ds) (pyInt (qmean ds))
      (calcAvgCycle ts (detectDailyPatterns ts ds)) now).1 = some (lastD ts + c)
    rw [hdps, hcyc, hpred]
  · show (predictNext ts (detectDailyPatterns ts ds) (pyInt (qmean ds))
      (calcAvgCycle ts (detectDailyPatterns ts ds)) now).2 =
        some (lastD ts + c + pyInt (qmean ds))
    rw [hdps, hcyc, hpred]

/-- C4 witness: measurements at 08:20 and 08:40 (distinct singleton buckets),
cycle 20 minutes; the prediction is 09:00 = last + one cycle. -/
theorem c4_single_step_prediction_witness :
    (analyzedRecord none [30000000, 31200000] [30000, 30000]
        31200000).next_green_start = some (lastD [30000000, 31200000] + 1200000) ∧
    (analyzedRecord none [30000000, 31200000] [30000, 30000]
        31200000).next_green_end =
      some (lastD [30000000, 31200000] + 1200000 + pyInt (qmean [30000, 30000])) ∧
    (1200000 : Int) < 1800000 :=
  c4_single_step_prediction [30000000, 31200000] [30000, 30000] 31200000 _ 1200000
    (by decide)
    (by
      rw [show calcAvgCycle [30000000, 31200000]
          (detectDailyPatterns [30000000, 31200000] [30000, 30000]) =
          some (pyInt (qmean [1200000])) from rfl]
      norm_num [pyInt, qmean])
    (by decide)
    ⟨none, RegularityRel_none_of_small _ _ (by decide),
      analyzeWith_some_intro none [30000000, 31200000] [30000, 30000] 31200000
        (by decide) (by decide) (by decide)⟩
    (by decide)

/-- C5 counterexample: identical measurement input, two different ambient
clock values, two different `analyze()` results — `analyze()` is not a
function of the input collection plus an explicitly supplied time (it takes
none), because `_predict_next_green_phase` reads `datetime.now()`. -/
theorem c5_counterexample :
    ∃ r1 r2, AnalyzeRel [28800000, 28920000] [30000, 30000] 28920000 r1 ∧
      AnalyzeRel [28800000, 28920000] [30000, 30000] 201720000 r2 ∧
      r1.next_green_start = some 115200000 ∧
      r2.next_green_start = some 201720000 ∧ r1 ≠ r2 := by
  refine ⟨analyzedRecord none [28800000, 28920000] [30000, 30000] 28920000,
    analyzedRecord none [28800000, 28920000] [30000, 30000] 201720000,
    ⟨none, RegularityRel_none_of_small _ _ (by decide),
      analyzeWith_some_intro _ _ _ _ (by decide) (by decide) (by decide)⟩,
    ⟨none, RegularityRel_none_of_small _ _ (by decide),
      analyzeWith_some_intro _ _ _ _ (by decide) (by decide) (by decide)⟩,
    rfl, rfl, ?_⟩
  intro hcontra
  have h1 : (analyzedRecord none [28800000, 28920000] [30000, 30000]
      28920000).next_green_start = some 115200000 := rfl
  have h2 : (analyzedRecord none [28800000, 28920000] [30000, 30000]
      201720000).next_green_start = some 201720000 := rfl
  rw [hcontra, h2] at h1
  exact absurd (Option.some.inj h1) (by decide)

/-- C5 amended: given the clock value read at the call as an explicit
parameter, every run is deterministic, and every field except the two
next-green predictions is a function of the measurement collection alone
(independent of the clock). -/
theorem c5_clock_independent_fields (reg : Option String) (ts ds : List Int)
    (now now' : Int) (r r' : AnalysisResult)
    (h : analyzeWith reg ts ds now = some r)
    (h' : analyzeWith reg ts ds now' = some r') :
    r.has_pattern = r'.has_pattern ∧ r.total_captures = r'.total_captures ∧
    r.average_duration_ms = r'.average_duration_ms ∧
    r.min_duration_ms = r'.min_duration_ms ∧
    r.max_duration_ms = r'.max_duration_ms ∧
    r.stddev_sq_duration_ms = r'.stddev_sq_duration_ms ∧
    r.typical_duration_ms = r'.typical_duration_ms ∧
    r.schedule_regularity = r'.schedule_regularity ∧
    r.average_cycle_ms = r'.average_cycle_ms := by
  by_cases hts : ts = []
  · subst hts
    rw [analyzeWith_empty] at h h'
    rcases Option.some.inj h with rfl
    rcases Option.some.inj h' with rfl
    exact ⟨rfl, rfl, rfl, rfl, rfl, rfl, rfl, rfl, rfl⟩
  · rcases analyzeWith_eq_some reg ts ds now r h hts with ⟨-, -, rfl⟩
    rcases analyzeWith_eq_some reg ts ds now' r' h' hts with ⟨-, -, rfl⟩
    exact ⟨rfl, rfl, rfl, rfl, rfl, rfl, rfl, rfl, rfl⟩

/-- C5 witness: the two runs of the counterexample input agree on every
field other than the predictions. -/
theorem c5_clock_independent_fields_witness :
    (analyzedRecord none [28800000, 28920000] [30000, 30000] 28920000).has_pattern =
      (analyzedRecord none [28800000, 28920000] [30000, 30000] 201720000).has_pattern ∧
    (analyzedRecord none [28800000, 28920000] [30000, 30000] 28920000).total_captures =
      (analyzedRecord none [28800000, 28920000] [30000, 30000] 201720000).total_captures ∧
    (analyzedRecord none [28800000, 28920000] [30000, 30000] 28920000).average_duration_ms =
      (analyzedRecord none [28800000, 28920000] [30000, 30000] 201720000).average_duration_ms ∧
    (analyzedRecord none [28800000, 28920000] [30000, 30000] 28920000).min_duration_ms =
      (analyzedRecord none [28800000, 28920000] [30000, 30000] 201720000).min_duration_ms ∧
    (analyzedRecord none [28800000, 28920000] [30000, 30000] 28920000).max_duration_ms =
      (analyzedRecord none [28800000, 28920000] [30000, 30000] 201720000).max_duration_ms ∧
    (analyzedRecord none [28800000, 28920000] [30000, 30000] 28920000).stddev_sq_duration_ms =
      (analyzedRecord none [28800000, 28920000] [30000, 30000] 201720000).stddev_sq_duration_ms ∧
    (analyzedRecord none [28800000, 28920000] [30000, 30000] 28920000).typical_duration_ms =
      (analyzedRecord none [28800000, 28920000] [30000, 30000] 201720000).typical_duration_ms ∧
    (analyzedRecord none [28800000, 28920000] [30000, 30000] 28920000).schedule_regularity =
      (analyzedRecord none [28800000, 28920000] [30000, 30000] 201720000).schedule_regularity ∧
    (analyzedRecord none [28800000, 28920000] [30000, 30000] 28920000).average_cycle_ms =
      (analyzedRecord none [28800000, 28920000] [30000, 30000] 201720000).average_cycle_ms :=
  c5_clock_independent_fields none [28800000, 28920000] [30000, 30000]
    28920000 201720000 _ _
    (analyzeWith_some_intro none [28800000, 28920000] [30000, 30000] 28920000
      (by decide) (by decide) (by decide))
    (analyzeWith_some_intro none [28800000, 28920000] [30000, 30000] 201720000
      (by decide) (by decide) (by decide))

/-- C6 counterexample: a mismatched-length input (two timestamps, one
duration) whose single duration is negative is accepted whole: `analyze()`
returns a normal result (`has_pattern = true`, `total_captures = 2`,
`min_duration_ms = -5`) instead of rejecting before analysis. -/
theorem c6_counterexample :
    ∃ r, AnalyzeRel [28800000, 28920000] [-5] 28800000 r ∧ r.has_pattern = true ∧
      r.total_captures = 2 ∧ r.min_duration_ms = some (-5) := by
  refine ⟨analyzedRecord none [28800000, 28920000] [-5] 28800000,
    ⟨none, RegularityRel_none_of_small _ _ (by decide),
      analyzeWith_some_intro _ _ _ _ (by decide) (by decide) (by decide)⟩,
    rfl, rfl, rfl⟩

/-- C6 amended: the engine performs no input validation at all.  Every
result it produces — including on mismatched-length sequences and
non-positive durations — reports `total_captures = len(timestamps)`
regardless of the durations, with statistics taken from the full durations
list while the bucket grouping silently truncates via `zip`. -/
theorem c6_no_validation (ts ds : List Int) (now : Int) (r : AnalysisResult)
    (h : AnalyzeRel ts ds now r) :
    r.total_captures = ts.length ∧
    (ts ≠ [] → r.average_duration_ms = some (pyInt (qmean ds)) ∧
      r.min_duration_ms = some (minD ds)) := by
  by_cases hts : ts = []
  · subst hts
    rcases h with ⟨reg, -, h⟩
    rw [analyzeWith_empty] at h
    rcases Option.some.inj h with rfl
    exact ⟨rfl, fun hne => absurd rfl hne⟩
  · rcases h with ⟨reg, -, h⟩
    rcases analyzeWith_eq_some reg ts ds now r h hts with ⟨-, -, rfl⟩
    exact ⟨rfl, fun _ => ⟨rfl, rfl⟩⟩

/-- C6 witness: the mismatched input of the counterexample. -/
theorem c6_no_validation_witness :
    (analyzedRecord none [28800000, 28920000] [-5] 28800000).total_captures =
      ([28800000, 28920000] : List Int).length ∧
    (([28800000, 28920000] : List Int) ≠ [] →
      (analyzedRecord none [28800000, 28920000] [-5] 28800000).average_duration_ms =
        some (pyInt (qmean [-5])) ∧
      (analyzedRecord none [28800000, 28920000] [-5] 28800000).min_duration_ms =
        some (minD [-5])) :=
  c6_no_validation [28800000, 28920000] [-5] 28800000 _
    ⟨none, RegularityRel_none_of_small _ _ (by decide),
      analyzeWith_some_intro _ _ _ _ (by decide) (by decide) (by decide)⟩

/-- C7 counterexample: with two 30-minute buckets each holding two
measurements (08:00/08:10 with durations 10000, 09:00/09:10 with durations
50000), `_determine_regularity` averages the per-bucket variance ratios
(both 0) and returns "regular", while the claim's formula
`stddev(durations)/mean(durations)` over all four durations yields a ratio
above 0.2 and hence "irregular". -/
theorem c7_counterexample :
    RegularityRel [28800000, 29400000, 32400000, 33000000]
      [10000, 10000, 50000, 50000] (some ("regular")) ∧
    SpecRegularityRel [10000, 10000, 50000, 50000] (some ("irregular")) := by
  constructor
  · unfold RegularityRel
    rw [if_neg (by decide :
      ¬([28800000, 29400000, 32400000, 33000000] : List Int).length < 3)]
    rw [if_pos (by decide :
      2 ≤ strongCount [28800000, 29400000, 32400000, 33000000]
          [10000, 10000, 50000, 50000] ∧
        bucketDurLists [28800000, 29400000, 32400000, 33000000]
          [10000, 10000, 50000, 50000] ≠ [])]
    have hbl : bucketDurLists [28800000, 29400000, 32400000, 33000000]
        [10000, 10000, 50000, 50000] = [[10000, 10000], [50000, 50000]] := by decide
    rw [hbl]
    constructor
    · intro l hl
      rcases List.mem_cons.mp hl with rfl | hl2
      · norm_num [qmean]
      rcases List.mem_singleton.mp hl2 with rfl
      norm_num [qmean]
    · refine ⟨"regular", ?_, rfl⟩
      have hv1 : sampleVar [10000, 10000] = 0 := by norm_num [sampleVar, qmean]
      have hv2 : sampleVar [50000, 50000] = 0 := by norm_num [sampleVar, qmean]
      left
      constructor
      · simp only [List.map_cons, List.map_nil, List.sum_cons, List.sum_nil,
          List.length_cons, List.length_nil, hv1, hv2]
        rw [show ((0 : ℚ) : ℝ) = 0 from by norm_num, Real.sqrt_zero]
        norm_num
      · rfl
  · unfold SpecRegularityRel
    rw [if_neg (by decide : ¬([10000, 10000, 50000, 50000] : List Int).length < 3)]
    refine ⟨"irregular", ?_, rfl⟩
    have hm : qmean [10000, 10000, 50000, 50000] ≠ 0 := by norm_num [qmean]
    rw [verdictRel_sqrt_iff _ _ (sampleVar_nonneg _) hm]
    have h1 : sampleVar [10000, 10000, 50000, 50000] = 1600000000 / 3 := by
      norm_num [sampleVar, qmean]
    have h2 : qmean [10000, 10000, 50000, 50000] = 30000 := by norm_num [qmean]
    rw [h1, h2]
    norm_num [varianceVerdict]

/-- C7 amended: with fewer than 3 captures there is no verdict; when
additionally FEWER than two 30-minute buckets hold two or more measurements
(so the daily-pattern branch is skipped), the verdict is exactly the claim's
rule — `stddev(durations)/mean(durations)` against the closed thresholds
0.10 and 0.20, decided by `varianceVerdict` on the sample variance —
requiring at least two durations and a nonzero mean; otherwise the code
instead averages per-bucket variance ratios. -/
theorem c7_fallback_regularity (ts ds : List Int) (now : Int) (r : AnalysisResult)
    (h3 : ¬ts.length < 3)
    (hb : ¬(2 ≤ strongCount ts ds ∧ bucketDurLists ts ds ≠ []))
    (h : AnalyzeRel ts ds now r) :
    r.schedule_regularity = some (varianceVerdict (sampleVar ds) (qmean ds)) ∧
    2 ≤ ds.length ∧ qmean ds ≠ 0 := by
  rcases h with ⟨reg, hreg, h⟩
  unfold RegularityRel at hreg
  rw [if_neg h3, if_neg hb] at hreg
  obtain ⟨hlen, hm, s, hv, rfl⟩ := hreg
  have hs := (verdictRel_sqrt_iff (sampleVar ds) (qmean ds) (sampleVar_nonneg ds)
    hm s).mp hv
  have hts : ts ≠ [] := by
    intro e
    rw [e] at h3
    exact h3 (by simp)
  rcases analyzeWith_eq_some _ ts ds now r h hts with ⟨-, -, rfl⟩
  refine ⟨?_, hlen, hm⟩
  show some s = some (varianceVerdict (sampleVar ds) (qmean ds))
  rw [hs]

/-- C7 witness: three measurements in three distinct buckets with equal
durations; the fallback ratio is 0 and the verdict "regular". -/
theorem c7_fallback_regularity_witness :
    (analyzedRecord
        (some (varianceVerdict (sampleVar [10, 10, 10]) (qmean [10, 10, 10])))
        [28800000, 32400000, 36000000] [10, 10, 10] 0).schedule_regularity =
      some (varianceVerdict (sampleVar [10, 10, 10]) (qmean [10, 10, 10])) ∧
    2 ≤ ([10, 10, 10] : List Int).length ∧ qmean [10, 10, 10] ≠ 0 :=
  c7_fallback_regularity [28800000, 32400000, 36000000] [10, 10, 10] 0 _
    (by decide) (by decide)
    ⟨some (varianceVerdict (sampleVar [10, 10, 10]) (qmean [10, 10, 10])),
      RegularityRel_of_fallback _ _ (by decide) (by decide) (by decide)
        (by norm_num [qmean]),
      analyzeWith_some_intro _ _ _ _ (by decide) (by decide) (by decide)⟩

/-- C3 counterexample: two measurement sets with resolvable patterns
(spec Cycle Finder succeeds) for which the 1-hour timeline does NOT have
strictly fewer intervals than the 24-hour timeline — both have exactly one:
a 30-hour cycle (28.5 h green, 1.5 h red), and a 30-minute cycle whose
average green duration (≈24 h, inflated by one huge observation) swallows
the whole day. -/
theorem c3_counterexample :
    (getDailyTimeline [1800000, 109800000] [102600000, 102600000] 0 1).length =
      (getDailyTimeline [1800000, 109800000] [102600000, 102600000] 0 24).length ∧
    specCycleFinder [1800000, 109800000] [102600000, 102600000] =
      some (108000000, 5400000) ∧
    (getDailyTimeline [28800000, 30600000] [600000, 172800000] 0 1).length =
      (getDailyTimeline [28800000, 30600000] [600000, 172800000] 0 24).length ∧
    specCycleFinder [28800000, 30600000] [600000, 172800000] =
      some (1800000, 1200000) := by
  have hd1 : specAvgDur [102600000, 102600000] = 102600000 := by
    norm_num [specAvgDur, qmean]
  have hd2 : specAvgDur [600000, 172800000] = 86700000 := by
    norm_num [specAvgDur, qmean]
  refine ⟨?_, by decide, ?_, by decide⟩
  · rw [getDailyTimeline_unfold [1800000, 109800000] [102600000, 102600000] 0 1
        108000000 5400000 (by decide) (by decide) (by decide),
      getDailyTimeline_unfold [1800000, 109800000] [102600000, 102600000] 0 24
        108000000 5400000 (by decide) (by decide) (by decide), hd1]
    decide
  · rw [getDailyTimeline_unfold [28800000, 30600000] [600000, 172800000] 0 1
        1800000 1200000 (by decide) (by decide) (by decide),
      getDailyTimeline_unfold [28800000, 30600000] [600000, 172800000] 0 24
        1800000 1200000 (by decide) (by decide) (by decide), hd2]
    decide

/-- C3 amended: `get_daily_timeline` (modelled from the spec; absent from
the source, which only its tests call) takes a reference date and a window
length whose source default is 24 hours.  For a measurement set with a
resolvable pattern whose average green duration is positive and shorter than
the cycle, and whose cycle is at most 23 hours, the 1-hour window yields
strictly fewer intervals than the 24-hour window, every interval lies
within its requested window, and the states strictly alternate starting
with green.  (When the cycle exceeds one hour the earliest in-window green
start may miss the 1-hour window entirely; the 1-hour timeline is then
empty while the 24-hour one is not, so the count is still strictly
smaller.) -/
theorem c3_timeline (ts ds : List Int) (c red ref : Int)
    (hfind : specCycleFinder ts ds = some (c, red)) (hts : 2 ≤ ts.length)
    (hdur : 0 < specAvgDur ds) (hdc : specAvgDur ds < c) (hc : c ≤ 82800000) :
    (getDailyTimeline ts ds ref 1).length < (getDailyTimeline ts ds ref 24).length ∧
    (∀ h : Int, ∀ i ∈ getDailyTimeline ts ds ref h,
      ref ≤ i.start_time ∧ i.end_time ≤ ref + h * 3600000 ∧
        i.start_time < i.end_time) ∧
    (∀ h : Int, altFrom LightState.green (getDailyTimeline ts ds ref h)) := by
  have hc0 : 0 < c := lt_trans hdur hdc
  have hmod0 : 0 ≤ timeOfDay (minD ts) % c := Int.emod_nonneg _ (ne_of_gt hc0)
  have hmodlt : timeOfDay (minD ts) % c < c := Int.emod_lt_of_pos _ hc0
  refine ⟨?_, ?_, ?_⟩
  · rw [getDailyTimeline_unfold ts ds ref 1 c red hfind hts hc0,
        getDailyTimeline_unfold ts ds ref 24 c red hfind hts hc0]
    have hf24 : ref + 24 * 3600000 ≤ (ref + timeOfDay (minD ts) % c) +
        c * (((24 : Int).toNat * 3600000 / c.toNat + 2 : Nat) : Int) := by
      have he : ((24 : Int).toNat * 3600000 : Nat) = (86400000 : Int).toNat := by decide
      rw [he]
      have h1 := int_fuel_enough c 86400000 hc0 (by norm_num)
      omega
    by_cases hin : ref + timeOfDay (minD ts) % c < ref + 1 * 3600000
    · -- the earliest in-window green start lies inside the 1-hour window too
      have hf1 : ref + 1 * 3600000 ≤ (ref + timeOfDay (minD ts) % c) +
          c * (((1 : Int).toNat * 3600000 / c.toNat + 2 : Nat) : Int) := by
        have he : ((1 : Int).toNat * 3600000 : Nat) = (3600000 : Int).toNat := by decide
        rw [he]
        have h1 := int_fuel_enough c 3600000 hc0 (by norm_num)
        omega
      exact emit_count_lt c (specAvgDur ds) (ref + 1 * 3600000) (ref + 24 * 3600000)
        hdur hdc (by omega) _ _ _ hf1 hf24 hin
    · -- it misses the 1-hour window: that timeline is empty, the other is not
      rw [emit_nil_of_le c (specAvgDur ds) (ref + 1 * 3600000) _
        (ref + timeOfDay (minD ts) % c) (by omega)]
      have hpos := emit_length_pos c (specAvgDur ds) (ref + 24 * 3600000) _
        (ref + timeOfDay (minD ts) % c) (by omega) hf24
      simpa using hpos
  · intro h i hi
    rw [getDailyTimeline_unfold ts ds ref h c red hfind hts hc0] at hi
    exact emit_within c (specAvgDur ds) (ref + h * 3600000) ref hdur hdc _ _
      (by omega) i hi
  · intro h
    rw [getDailyTimeline_unfold ts ds ref h c red hfind hts hc0]
    exact emit_altFrom c (specAvgDur ds) (ref + h * 3600000) _ _

/-- C3 witness: measurements at 08:00 (10 min green) and 08:30 — a 30-minute
cycle with a 20-minute red gap — over the day starting at instant 0. -/
theorem c3_timeline_witness :
    (getDailyTimeline [28800000, 30600000] [600000, 600000] 0 1).length <
      (getDailyTimeline [28800000, 30600000] [600000, 600000] 0 24).length ∧
    (∀ h : Int, ∀ i ∈ getDailyTimeline [28800000, 30600000] [600000, 600000] 0 h,
      (0 : Int) ≤ i.start_time ∧ i.end_time ≤ 0 + h * 3600000 ∧
        i.start_time < i.end_time) ∧
    (∀ h : Int, altFrom LightState.green
      (getDailyTimeline [28800000, 30600000] [600000, 600000] 0 h)) :=
  c3_timeline [28800000, 30600000] [600000, 600000] 1800000 1200000 0
    (by decide) (by decide) (by norm_num [specAvgDur, qmean])
    (by norm_num [specAvgDur, qmean]) (by norm_num)
